import Mathlib

/-!
# Window Inspector: snapshot builder and presentation filter

A shallow embedding of `WindowInspector/main.cpp` and `WindowInspector/ui.hpp`.

* `std::wstring` is a list of UTF-16 code units, `std::string` a list of bytes
  (both `List Nat`); `DWORD`, `HWND` and `size_t` values are `Nat`.
* The answers of the operating system and of the immediate-mode toolkit are
  explicit arguments of the functions that ask for them.
* `std::unordered_map<DWORD, std::vector<WindowInfo>>` is an association list;
  only keyed access is used by the program, so bucket order is irrelevant.
-/

namespace Inspector

/-! ## Data model (`ui.hpp`, lines 17-48) -/

/-- A `std::wstring`: UTF-16 code units. -/
abbrev WString := List Nat

/-- A `std::string`: bytes. -/
abbrev Bytes := List Nat

/-- The bytes of an ASCII string literal of the source. -/
def lit (s : String) : Bytes := s.data.map Char.toNat

/-- The Win32 `RECT`. -/
structure RECT where
  left : Int
  top : Int
  right : Int
  bottom : Int
deriving DecidableEq, Repr

/-- The Win32 `SYSTEMTIME` (the fields the program reads). -/
structure SYSTEMTIME where
  wYear : Nat
  wMonth : Nat
  wDay : Nat
  wHour : Nat
  wMinute : Nat
  wSecond : Nat
deriving DecidableEq, Repr

/-- `struct ProcessInfo`. -/
structure ProcessInfo where
  pid : Nat
  name : WString
deriving DecidableEq, Repr

/-- `struct WindowInfo`. -/
structure WindowInfo where
  handle : Nat
  pid : Nat
  threadId : Nat
  title : WString
  className : WString
  style : Int
  exStyle : Int
  bounds : RECT
  visible : Bool
deriving DecidableEq, Repr

/-- `struct ProcessWindows`. -/
structure ProcessWindows where
  process : ProcessInfo
  windows : List WindowInfo
deriving DecidableEq, Repr

/-- `struct InspectorSnapshot`. -/
structure InspectorSnapshot where
  timestamp : SYSTEMTIME
  processes : List ProcessWindows
  totalProcessCount : Nat
  totalWindowCount : Nat
deriving DecidableEq, Repr

/-! ## The window map of `CollectInspectorSnapshot` (`main.cpp`, line 386) -/

/-- The `std::unordered_map<DWORD, std::vector<WindowInfo>>` named `windowsByPid`. -/
abbrev WindowMap := List (Nat × List WindowInfo)

/-- The statement `windowsByPid[pid].push_back(window)`: `operator[]` finds the
entry of `pid`, inserting an empty vector when there is none, and the window is
appended to that vector. -/
def WindowMap.pushBack : WindowMap → Nat → WindowInfo → WindowMap
  | [], pid, window => [(pid, [window])]
  | (key, group) :: rest, pid, window =>
    if key = pid then (key, group ++ [window]) :: rest
    else (key, group) :: WindowMap.pushBack rest pid window

/-- The call `windowsByPid.find(pid)`: `none` stands for `end()`, `some group`
for an iterator whose `second` is `group`. -/
def WindowMap.find : WindowMap → Nat → Option (List WindowInfo)
  | [], _ => none
  | (key, group) :: rest, pid =>
    if key = pid then some group else WindowMap.find rest pid

/-- The map after `entry.windows = std::move(it->second)` for the entry of `pid`:
the freshly constructed, empty `entry.windows` takes over the buffer of the
mapped vector, and the mapped vector is left empty (the state in which the
move assignment of `std::vector` leaves its source in the MSVC, GNU and LLVM
standard libraries). -/
def WindowMap.moveOut : WindowMap → Nat → WindowMap
  | [], _ => []
  | (key, group) :: rest, pid =>
    if key = pid then (key, []) :: rest
    else (key, group) :: WindowMap.moveOut rest pid

/-- The first loop of `CollectInspectorSnapshot` (lines 388-391), run from the
map `m`: every window is appended to the vector of its owner pid. -/
def groupLoop : List WindowInfo → WindowMap → WindowMap
  | [], m => m
  | window :: rest, m => groupLoop rest (WindowMap.pushBack m window.pid window)

/-- The second loop of `CollectInspectorSnapshot` (lines 393-402), run from the
map `m` and the aggregates `acc` emplaced so far. -/
def joinLoop : List ProcessInfo → WindowMap → List ProcessWindows → List ProcessWindows
  | [], _, acc => acc
  | process :: rest, m, acc =>
    match WindowMap.find m process.pid with
    | some group =>
      joinLoop rest (WindowMap.moveOut m process.pid) (acc ++ [{ process := process, windows := group }])
    | none =>
      joinLoop rest m (acc ++ [{ process := process, windows := [] }])

/-- The function `CollectInspectorSnapshot` (lines 376-406). The results of
`EnumerateProcesses()` and `EnumerateWindows()` are the arguments `processes`
and `windows`, and `localTime` is what `GetLocalTime` stores. -/
def CollectInspectorSnapshot (processes : List ProcessInfo) (windows : List WindowInfo)
    (localTime : SYSTEMTIME) : InspectorSnapshot :=
  let totalProcessCount := processes.length
  let totalWindowCount := windows.length
  let windowsByPid := groupLoop windows []
  { timestamp := localTime
    processes := joinLoop processes windowsByPid []
    totalProcessCount := totalProcessCount
    totalWindowCount := totalWindowCount }

/-- One `PROCESSENTRY32W` as filled in by `Process32FirstW` / `Process32NextW`. -/
structure PROCESSENTRY32W where
  th32ProcessID : Nat
  szExeFile : WString
deriving DecidableEq, Repr

/-- The function `EnumerateProcesses` (lines 279-304). `toolhelp` is `none` when
`CreateToolhelp32Snapshot` returns `INVALID_HANDLE_VALUE`, and otherwise holds
the entries that `Process32FirstW` and `Process32NextW` hand out, in order.
`name.assign(szExeFile)` copies the buffer up to its first NUL. -/
def EnumerateProcesses (toolhelp : Option (List PROCESSENTRY32W)) : List ProcessInfo :=
  match toolhelp with
  | none => []
  | some entries =>
    entries.map (fun entry =>
      { pid := entry.th32ProcessID, name := entry.szExeFile.takeWhile (fun c => c != 0) })

/-! ## Text helpers (`ui.hpp`, lines 50-94) -/

/-- The function `ToUtf8` (lines 50-66). `WideCharToMultiByte` is the platform's
conversion of the whole text to UTF-8; the byte count it reports is `required`,
and a failed conversion reports no bytes. -/
def ToUtf8 (WideCharToMultiByte : WString → Bytes) (text : WString) : Bytes :=
  if text = [] then []
  else
    let required : Int := (WideCharToMultiByte text).length
    if required ≤ 0 then []
    else WideCharToMultiByte text

/-- The decimal digits of `n`, as `std::to_string` and `%u` print them. -/
def decimal (n : Nat) : Bytes := (Nat.toDigits 10 n).map Char.toNat

/-- The conversion `%0<width>u` of `snprintf`. -/
def zeroPadded (width n : Nat) : Bytes :=
  List.replicate (width - (decimal n).length) 48 ++ decimal n

/-- The function `FormatTimestamp` (lines 68-80); `snprintf` keeps at most 63
bytes in the 64-byte buffer. -/
def FormatTimestamp (time : SYSTEMTIME) : Bytes :=
  if time.wYear = 0 then []
  else
    (zeroPadded 4 time.wYear ++ lit "-" ++ zeroPadded 2 time.wMonth ++ lit "-" ++
      zeroPadded 2 time.wDay ++ lit " " ++ zeroPadded 2 time.wHour ++ lit ":" ++
      zeroPadded 2 time.wMinute ++ lit ":" ++ zeroPadded 2 time.wSecond).take 63

/-- The function `std::tolower` on an `unsigned char` in the "C" locale, which is
the locale in force (the program never calls `setlocale`): the letters `A`-`Z`
map to `a`-`z`, every other byte to itself. -/
def tolower (c : Nat) : Nat :=
  if 65 ≤ c ∧ c ≤ 90 then c + 32 else c

/-- The bytes a `const char*` designates: the buffer up to its first NUL. -/
def cstr (buffer : Bytes) : Bytes := buffer.takeWhile (fun c => c != 0)

/-- The call `text.find(pattern)` of `std::string`: the first position at which
`pattern` starts in `text`, `none` standing for `npos`. -/
def stringFind : Bytes → Bytes → Option Nat
  | [], pattern => if pattern = [] then some 0 else none
  | c :: rest, pattern =>
    if pattern.isPrefixOf (c :: rest) then some 0
    else (stringFind rest pattern).map (fun pos => pos + 1)

/-- The function `ContainsCaseInsensitive` (lines 82-94). The pointer `filter`
is `none` when null and otherwise the buffer it points into; a buffer with no
byte left before its end reads as the terminator. -/
def ContainsCaseInsensitive (text : Bytes) (filter : Option Bytes) : Bool :=
  match filter with
  | none => true
  | some buffer =>
    if buffer.headD 0 = 0 then true
    else
      let lowerText := text.map tolower
      let lowerFilter := (cstr buffer).map tolower
      (stringFind lowerText lowerFilter).isSome

/-! ## The presentation layer (`ui.hpp`, lines 96-225) -/

/-- An argument of a `printf`-style `ImGui::Text` call. -/
inductive FmtArg where
  | num (n : Int)
  | str (s : Bytes)
deriving DecidableEq, Repr

/-- The toolkit calls `RenderInspectorUi` issues, in the order it issues them.
The calls that only position or size the next item (`SetNextWindowPos`,
`SetNextWindowSize`, `SetNextWindowFocus`, `SetNextItemWidth`) are not recorded. -/
inductive DrawCmd where
  | windowBegin (name : Bytes)
  | button (label : Bytes)
  | sameLine
  | inputTextWithHint (label hint : Bytes)
  | text (fmt : Bytes) (args : List FmtArg)
  | textUnformatted (s : Bytes)
  | textDisabled (s : Bytes)
  | separator
  | beginChild (name : Bytes)
  | collapsingHeader (label : Bytes)
  | beginTable (id : Bytes) (columns : Nat)
  | tableSetupColumn (label : Bytes)
  | tableHeadersRow
  | tableNextRow
  | tableSetColumnIndex (column : Nat)
  | endTable
  | endChild
  | windowEnd
deriving DecidableEq, Repr

/-- What the toolkit answers during one call of `RenderInspectorUi`: the display
size (`DisplaySize` of `ImGui::GetIO()`, in whole pixels), the results of `Begin`,
`Button("Refresh")` and `BeginChild`, the content of the filter buffer after
`InputTextWithHint` has applied this frame's edits to it, and the results of
`CollapsingHeader` and `BeginTable` for each label. -/
structure Frame where
  DisplaySize : Int × Int
  Begin : Bool
  Button : Bool
  InputTextWithHint : Bytes → Bytes
  BeginChild : Bool
  CollapsingHeader : Bytes → Bool
  BeginTable : Bytes → Bool

/-- The result of one call of `RenderInspectorUi`: the returned flag, the
function-local static `processFilter` after the call, and the calls issued. -/
structure RenderResult where
  refreshRequested : Bool
  processFilter : Bytes
  drawn : List DrawCmd
deriving DecidableEq, Repr

/-- The value of `processName` for one entry (line 150). -/
def processName (conv : WString → Bytes) (entry : ProcessWindows) : Bytes :=
  if entry.process.name = [] then lit "<Unknown>" else ToUtf8 conv entry.process.name

/-- The value of `headerLabel` for one entry (line 157). -/
def headerLabel (conv : WString → Bytes) (entry : ProcessWindows) : Bytes :=
  processName conv entry ++ lit " [PID " ++ decimal entry.process.pid ++ lit "]##proc_" ++
    decimal entry.process.pid

/-- The unsigned 64-bit reading `static_cast<unsigned long long>(value)`. -/
def asUnsigned64 (value : Int) : Int := value % 2 ^ 64

/-- The body of the loop over `entry.windows` (lines 181-207) for one window. -/
def renderRow (conv : WString → Bytes) (window : WindowInfo) : List DrawCmd :=
  let title := if window.title = [] then lit "<No Title>" else ToUtf8 conv window.title
  let className :=
    if window.className = [] then lit "<UnknownClass>" else ToUtf8 conv window.className
  let width := window.bounds.right - window.bounds.left
  let height := window.bounds.bottom - window.bounds.top
  [ DrawCmd.tableNextRow,
    DrawCmd.tableSetColumnIndex 0,
    DrawCmd.text (lit "0x%llX") [FmtArg.num window.handle],
    DrawCmd.tableSetColumnIndex 1,
    DrawCmd.textUnformatted title,
    DrawCmd.tableSetColumnIndex 2,
    DrawCmd.textUnformatted className,
    DrawCmd.tableSetColumnIndex 3,
    DrawCmd.text (lit "TID %lu\n%s")
      [FmtArg.num window.threadId, FmtArg.str (if window.visible then lit "Visible" else lit "Hidden")],
    DrawCmd.tableSetColumnIndex 4,
    DrawCmd.text (lit "S:0x%08llX\nE:0x%08llX")
      [FmtArg.num (asUnsigned64 window.style), FmtArg.num (asUnsigned64 window.exStyle)],
    DrawCmd.tableSetColumnIndex 5,
    DrawCmd.text (lit "(%ld,%ld)-(%ld,%ld)\n[%ldx%ld]")
      [FmtArg.num window.bounds.left, FmtArg.num window.bounds.top,
       FmtArg.num window.bounds.right, FmtArg.num window.bounds.bottom,
       FmtArg.num width, FmtArg.num height] ]

/-- The calls issued for one entry that passed the filter (lines 157-212). -/
def renderGroup (conv : WString → Bytes) (fr : Frame) (entry : ProcessWindows) : List DrawCmd :=
  let label := headerLabel conv entry
  [DrawCmd.collapsingHeader label] ++
    (if fr.CollapsingHeader label then
      [DrawCmd.text (lit "Windows: %zu") [FmtArg.num entry.windows.length]] ++
        (if entry.windows = [] then [DrawCmd.textDisabled (lit "No top-level windows.")]
         else
          let tableId := lit "##win_table_" ++ decimal entry.process.pid
          [DrawCmd.beginTable tableId 6] ++
            (if fr.BeginTable tableId then
              [ DrawCmd.tableSetupColumn (lit "HWND"),
                DrawCmd.tableSetupColumn (lit "Title"),
                DrawCmd.tableSetupColumn (lit "Class"),
                DrawCmd.tableSetupColumn (lit "Thread/Visible"),
                DrawCmd.tableSetupColumn (lit "Styles"),
                DrawCmd.tableSetupColumn (lit "Bounds"),
                DrawCmd.tableHeadersRow ] ++
                entry.windows.flatMap (renderRow conv) ++ [DrawCmd.endTable]
             else []))
     else [])

/-- The loop over `snapshot.processes` (lines 148-213), run from the counter
`visibleCount` and the calls `drawn` issued so far, with `filter` the content of
the buffer `processFilter.data()` points to. -/
def processListLoop (conv : WString → Bytes) (fr : Frame) (filter : Bytes) :
    List ProcessWindows → Nat → List DrawCmd → Nat × List DrawCmd
  | [], visibleCount, drawn => (visibleCount, drawn)
  | entry :: rest, visibleCount, drawn =>
    if !ContainsCaseInsensitive (processName conv entry) (some filter) then
      processListLoop conv fr filter rest visibleCount drawn
    else
      processListLoop conv fr filter rest (visibleCount + 1) (drawn ++ renderGroup conv fr entry)

/-- The message of line 217. -/
def noMatchMessage : DrawCmd :=
  DrawCmd.textDisabled (lit "No processes match the current filter.")

/-- The function `RenderInspectorUi` (lines 96-225). `processFilter` is the
function-local static buffer as the call finds it. The parameter `deltaSeconds`
only feeds the unused local `fps` and is left out. -/
def RenderInspectorUi (conv : WString → Bytes) (fr : Frame) (processFilter : Bytes)
    (snapshot : InspectorSnapshot) : RenderResult :=
  if fr.DisplaySize.1 ≤ 0 ∨ fr.DisplaySize.2 ≤ 0 then
    { refreshRequested := false, processFilter := processFilter, drawn := [] }
  else if fr.Begin then
    let refreshRequested := fr.Button
    let processFilter := fr.InputTextWithHint processFilter
    let timestamp := FormatTimestamp snapshot.timestamp
    let head :=
      [ DrawCmd.windowBegin (lit "Window Inspector"),
        DrawCmd.button (lit "Refresh"),
        DrawCmd.sameLine,
        DrawCmd.inputTextWithHint (lit "##ProcessFilter") (lit "Filter by process name"),
        (if snapshot.processes ≠ [] then
          DrawCmd.text (lit "Processes: %zu | Windows: %zu | Last refresh: %s")
            [FmtArg.num snapshot.totalProcessCount, FmtArg.num snapshot.totalWindowCount,
             FmtArg.str (if timestamp = [] then lit "N/A" else timestamp)]
         else
          DrawCmd.textUnformatted (lit "No snapshot collected yet. Press Refresh to gather data.")),
        DrawCmd.separator,
        DrawCmd.beginChild (lit "ProcessList") ]
    let list :=
      if fr.BeginChild then
        let looped := processListLoop conv fr processFilter snapshot.processes 0 []
        looped.2 ++
          (if looped.1 = 0 ∧ snapshot.processes ≠ [] then [noMatchMessage] else [])
      else []
    { refreshRequested := refreshRequested
      processFilter := processFilter
      drawn := head ++ list ++ [DrawCmd.endChild, DrawCmd.windowEnd] }
  else
    { refreshRequested := false
      processFilter := processFilter
      drawn := [DrawCmd.windowBegin (lit "Window Inspector"), DrawCmd.windowEnd] }


/-! ## The window enumerator (`main.cpp`, lines 306-374) -/

/-- The content of a zero-initialised buffer of `size` units after the platform
has written `written` from its start; nothing is written past its end. -/
def filled (size : Nat) (written : WString) : WString :=
  (written ++ List.replicate size 0).take size

/-- The call `text.resize(count)` of `std::wstring`: the first `count` units,
padded with NUL when the text is shorter. -/
def resize (text : WString) (count : Nat) : WString :=
  text.take count ++ List.replicate (count - text.length) 0

/-- What the platform answers about one window handed to `EnumWindowsThunk`:
`IsWindow`; the thread id returned and the process id stored by
`GetWindowThreadProcessId`; the length reported by `GetWindowTextLengthW`; for
`GetWindowTextW` and `GetClassNameW` the returned count and the units written
into the buffer; the two `GetWindowLongPtrW` values; `IsWindowVisible`; and the
rectangle of `GetWindowRect`, `none` when that call fails. -/
structure WindowAnswers where
  hwnd : Nat
  IsWindow : Bool
  threadId : Nat
  processId : Nat
  GetWindowTextLengthW : Int
  GetWindowTextW : Int × WString
  GetClassNameW : Int × WString
  style : Int
  exStyle : Int
  IsWindowVisible : Bool
  GetWindowRect : Option RECT

/-- The value of `info.title` after lines 318-337 of `EnumWindowsThunk`. -/
def recordedTitle (a : WindowAnswers) : WString :=
  let length := a.GetWindowTextLengthW
  let title : WString :=
    if length > 0 then
      let buffer := filled (length + 1).toNat a.GetWindowTextW.2
      let copied := a.GetWindowTextW.1
      if copied > 0 then resize buffer copied.toNat else []
    else []
  if title = [] then lit "<No Title>" else title

/-- The value of `info.className` after lines 339-348 of `EnumWindowsThunk`:
`assign(classBuffer, classLen)` takes `classLen` units of the 256-unit buffer. -/
def recordedClassName (a : WindowAnswers) : WString :=
  let classBuffer := filled 256 a.GetClassNameW.2
  let classLen := a.GetClassNameW.1
  if classLen > 0 then classBuffer.take classLen.toNat else lit "<UnknownClass>"

/-- The record `info` that `EnumWindowsThunk` builds for a window (lines 314-356). -/
def recordOf (a : WindowAnswers) : WindowInfo :=
  { handle := a.hwnd
    pid := a.processId
    threadId := a.threadId
    title := recordedTitle a
    className := recordedClassName a
    style := a.style
    exStyle := a.exStyle
    visible := a.IsWindowVisible
    bounds :=
      match a.GetWindowRect with
      | some rect => rect
      | none => { left := 0, top := 0, right := 0, bottom := 0 } }

/-- The callback `EnumWindowsThunk` (lines 306-360), as the vector it leaves
behind `lParam`; it returns `TRUE` on every path. -/
def EnumWindowsThunk (a : WindowAnswers) (windows : List WindowInfo) : List WindowInfo :=
  if !a.IsWindow then windows
  else windows ++ [recordOf a]

/-- The function `EnumerateWindows` (lines 362-374): `EnumWindows` hands the
windows `visited` to the callback one after the other. -/
def EnumerateWindows (visited : List WindowAnswers) : List WindowInfo :=
  visited.foldl (fun windows a => EnumWindowsThunk a windows) []

/-! ## The frame loop (`main.cpp`, lines 116-148) -/

/-- What one rendering iteration of the loop of `wWinMain` receives: the
toolkit's answers for the frame, and what the two enumerations and the clock
return if the snapshot is collected again in this iteration. -/
structure Iteration where
  frame : Frame
  processes : List ProcessInfo
  windows : List WindowInfo
  localTime : SYSTEMTIME

/-- The rendering iterations of the loop of `wWinMain` (lines 116-148), from the
filter buffer and the snapshot they start with: the values `shouldRefresh`
takes, one per iteration. Iterations that only dispatch a message do not render
and are not listed. -/
def frameLoop (conv : WString → Bytes) : List Iteration → Bytes → InspectorSnapshot → List Bool
  | [], _, _ => []
  | iteration :: rest, processFilter, snapshot =>
    let rendered := RenderInspectorUi conv iteration.frame processFilter snapshot
    let shouldRefresh := rendered.refreshRequested
    let snapshot :=
      if shouldRefresh then
        CollectInspectorSnapshot iteration.processes iteration.windows iteration.localTime
      else snapshot
    shouldRefresh :: frameLoop conv rest rendered.processFilter snapshot


/-! ## Sample data -/

/-- A window record with the given owner pid and title, every other field as
`WindowInfo` default-initialises it. -/
def windowOf (owner : Nat) (title : String) : WindowInfo :=
  { handle := 0, pid := owner, threadId := 0, title := lit title, className := [],
    style := 0, exStyle := 0, bounds := { left := 0, top := 0, right := 0, bottom := 0 },
    visible := false }

/-- A process record with the given pid and name. -/
def processOf (pid : Nat) (name : String) : ProcessInfo :=
  { pid := pid, name := lit name }

/-- A capture time. -/
def sampleTime : SYSTEMTIME :=
  { wYear := 2024, wMonth := 5, wDay := 17, wHour := 9, wMinute := 30, wSecond := 0 }

/-- The processes of the scenario: pid 10 `a.exe`, pid 20 `b.exe`. -/
def scenarioProcesses : List ProcessInfo := [processOf 10 "a.exe", processOf 20 "b.exe"]

/-- The windows of the scenario: `Alpha` and `Beta` owned by 10, `Orphan` by 99. -/
def scenarioWindows : List WindowInfo :=
  [windowOf 10 "Alpha", windowOf 10 "Beta", windowOf 99 "Orphan"]

/-- A process sequence that lists pid 10 twice. -/
def repeatedProcesses : List ProcessInfo := [processOf 10 "a.exe", processOf 10 "a.exe"]


/-- The UTF-8 conversion restricted to text whose code units are all below 128:
every code unit is its own byte. -/
def asciiConv : WString → Bytes := fun text => text

/-- A frame in which the display has a size, the panel, the child region, every
header and every table are open, nothing is typed and the button is not pressed. -/
def openFrame : Frame :=
  { DisplaySize := (1280, 800)
    Begin := true
    Button := false
    InputTextWithHint := fun buffer => buffer
    BeginChild := true
    CollapsingHeader := fun _ => true
    BeginTable := fun _ => true }

/-- The snapshot of the scenario. -/
def scenarioSnapshot : InspectorSnapshot :=
  CollectInspectorSnapshot scenarioProcesses scenarioWindows sampleTime

/-- The snapshot built when both enumerations return nothing. -/
def emptySnapshot : InspectorSnapshot := CollectInspectorSnapshot [] [] sampleTime


/-- The answers for a window whose reported title length is zero. -/
def untitledWindow : WindowAnswers :=
  { hwnd := 4660, IsWindow := true, threadId := 7, processId := 10,
    GetWindowTextLengthW := 0, GetWindowTextW := (0, []),
    GetClassNameW := (6, lit "Button"), style := 0, exStyle := 0,
    IsWindowVisible := true, GetWindowRect := none }

/-- The answers for a window titled `Alpha`. -/
def titledWindow : WindowAnswers :=
  { hwnd := 4661, IsWindow := true, threadId := 7, processId := 10,
    GetWindowTextLengthW := 5, GetWindowTextW := (5, lit "Alpha"),
    GetClassNameW := (6, lit "Button"), style := 0, exStyle := 0,
    IsWindowVisible := true, GetWindowRect := none }

/-- A frame like `openFrame` in which the Refresh button is pressed. -/
def pressedFrame : Frame := { openFrame with Button := true }

/-- A frame whose display has no size, the button answer being set all the same. -/
def minimisedFrame : Frame := { pressedFrame with DisplaySize := (0, 0) }


/-! ## Auxiliary definitions used by the proofs -/

/-- The windows the map `m` holds for `pid`: the mapped vector, or nothing when
`pid` has no entry. -/
def WindowMap.held (m : WindowMap) (pid : Nat) : List WindowInfo :=
  (WindowMap.find m pid).getD []

/-- The aggregates the second loop of `CollectInspectorSnapshot` appends for
`processes` once the vectors of the pids in `served` have been moved out of the
map: a closed form of `joinLoop`, related to it by `joinLoop_eq`. -/
def aggregatesAfter (windows : List WindowInfo) : List ProcessInfo → List Nat → List ProcessWindows
  | [], _ => []
  | process :: rest, served =>
    { process := process
      windows := if process.pid ∈ served then [] else windows.filter (fun w => w.pid = process.pid) }
      :: aggregatesAfter windows rest (process.pid :: served)

/-- Whether two bytes are equal or are the upper-case and lower-case form of the
same letter `A`-`Z`. -/
def caseVariant (a b : Nat) : Bool :=
  a == b || (decide (65 ≤ a ∧ a ≤ 90) && b == a + 32) || (decide (65 ≤ b ∧ b ≤ 90) && a == b + 32)

/-- Whether two byte strings differ only in the case of their letters. -/
def sameUpToCase : Bytes → Bytes → Bool
  | [], [] => true
  | a :: s, b :: t => caseVariant a b && sameUpToCase s t
  | _, _ => false

/-- The test of line 151 for one entry: whether it passes the filter. -/
def passesFilter (conv : WString → Bytes) (filter : Bytes) (entry : ProcessWindows) : Bool :=
  ContainsCaseInsensitive (processName conv entry) (some filter)


/-- The label of a `CollapsingHeader` call, `none` for every other call. -/
def headerOf : DrawCmd → Option Bytes
  | DrawCmd.collapsingHeader label => some label
  | _ => none

/-- The labels of the group headers among the calls `drawn`, in order. -/
def groupHeaders (drawn : List DrawCmd) : List Bytes := drawn.filterMap headerOf


/-! ## Snapshot builder: lemmas -/

theorem held_pushBack (m : WindowMap) (pid : Nat) (w : WindowInfo) (k : Nat) :
    WindowMap.held (WindowMap.pushBack m pid w) k
      = if k = pid then WindowMap.held m pid ++ [w] else WindowMap.held m k := by
  induction m with
  | nil =>
    by_cases h : k = pid
    · subst h; simp [WindowMap.pushBack, WindowMap.held, WindowMap.find]
    · have h2 : ¬ pid = k := fun e => h e.symm
      simp [WindowMap.pushBack, WindowMap.held, WindowMap.find, h, h2]
  | cons e rest ih =>
    obtain ⟨key, group⟩ := e
    unfold WindowMap.held at ih ⊢
    by_cases hk : key = pid
    · subst hk
      by_cases h : k = key
      · subst h; simp [WindowMap.pushBack, WindowMap.find]
      · have h2 : ¬ key = k := fun e => h e.symm
        simp [WindowMap.pushBack, WindowMap.find, h, h2]
    · by_cases h : key = k
      · subst h; simp [WindowMap.pushBack, WindowMap.find, hk]
      · simp only [WindowMap.pushBack, hk, if_false, WindowMap.find, h]
        exact ih

theorem held_moveOut (m : WindowMap) (pid k : Nat) :
    WindowMap.held (WindowMap.moveOut m pid) k
      = if k = pid then [] else WindowMap.held m k := by
  induction m with
  | nil => simp [WindowMap.moveOut, WindowMap.held, WindowMap.find]
  | cons e rest ih =>
    obtain ⟨key, group⟩ := e
    unfold WindowMap.held at ih ⊢
    by_cases hk : key = pid
    · subst hk
      by_cases h : k = key
      · subst h; simp [WindowMap.moveOut, WindowMap.find]
      · have h2 : ¬ key = k := fun e => h e.symm
        simp [WindowMap.moveOut, WindowMap.find, h, h2]
    · by_cases h : key = k
      · subst h; simp [WindowMap.moveOut, WindowMap.find, hk]
      · simp only [WindowMap.moveOut, hk, if_false, WindowMap.find, h]
        exact ih

theorem held_groupLoop (ws : List WindowInfo) (m : WindowMap) (k : Nat) :
    WindowMap.held (groupLoop ws m) k
      = WindowMap.held m k ++ ws.filter (fun w => w.pid = k) := by
  induction ws generalizing m with
  | nil => simp [groupLoop]
  | cons w rest ih =>
    rw [groupLoop, ih, held_pushBack]
    by_cases h : k = w.pid
    · subst h; simp
    · have h2 : ¬ w.pid = k := fun e => h e.symm
      simp [h, h2]

theorem joinLoop_eq (W : List WindowInfo) (ps : List ProcessInfo) :
    ∀ (m : WindowMap) (served : List Nat) (acc : List ProcessWindows),
      (∀ k, WindowMap.held m k
        = if k ∈ served then [] else W.filter (fun w => w.pid = k)) →
      joinLoop ps m acc = acc ++ aggregatesAfter W ps served := by
  induction ps with
  | nil => intro m served acc _; simp [joinLoop, aggregatesAfter]
  | cons p rest ih =>
    intro m served acc hm
    have hp := hm p.pid
    have hnext : ∀ k, WindowMap.held (WindowMap.moveOut m p.pid) k
        = if k ∈ p.pid :: served then [] else W.filter (fun w => w.pid = k) := by
      intro k
      rw [held_moveOut, hm k]
      by_cases h : k = p.pid
      · simp [h]
      · simp [h]
    unfold WindowMap.held at hp
    rw [joinLoop]
    cases hf : WindowMap.find m p.pid with
    | some group =>
      simp only [hf, Option.getD_some] at hp
      simp only []
      rw [ih _ _ _ hnext, aggregatesAfter, hp]
      simp
    | none =>
      simp only [hf, Option.getD_none] at hp
      have hm2 : ∀ k, WindowMap.held m k
          = if k ∈ p.pid :: served then [] else W.filter (fun w => w.pid = k) := by
        intro k
        rw [hm k]
        by_cases h : k = p.pid
        · subst h; simp [← hp]
        · simp [h]
      simp only []
      rw [ih _ _ _ hm2, aggregatesAfter, ← hp]
      simp

theorem processes_eq (P : List ProcessInfo) (W : List WindowInfo) (t : SYSTEMTIME) :
    (CollectInspectorSnapshot P W t).processes = aggregatesAfter W P [] := by
  have h := joinLoop_eq W P (groupLoop W []) [] [] (by
    intro k
    rw [held_groupLoop]
    simp [WindowMap.held, WindowMap.find])
  simpa [CollectInspectorSnapshot] using h


theorem aggregatesAfter_length (W : List WindowInfo) (ps : List ProcessInfo) (served : List Nat) :
    (aggregatesAfter W ps served).length = ps.length := by
  induction ps generalizing served with
  | nil => rfl
  | cons p rest ih => simp [aggregatesAfter, ih]

theorem aggregatesAfter_process (W : List WindowInfo) (ps : List ProcessInfo) (served : List Nat) :
    (aggregatesAfter W ps served).map (fun a => a.process) = ps := by
  induction ps generalizing served with
  | nil => rfl
  | cons p rest ih => simp [aggregatesAfter, ih]

theorem aggregatesAfter_getElem? (W : List WindowInfo) (ps : List ProcessInfo) :
    ∀ (served : List Nat) (i : Nat),
      (aggregatesAfter W ps served)[i]? = (ps[i]?).map (fun p =>
        { process := p
          windows := if p.pid ∈ served ∨ p.pid ∈ (ps.take i).map (fun q => q.pid) then []
                     else W.filter (fun w => w.pid = p.pid) }) := by
  induction ps with
  | nil => intro served i; simp [aggregatesAfter]
  | cons p rest ih =>
    intro served i
    cases i with
    | zero => simp [aggregatesAfter]
    | succ j =>
      simp only [aggregatesAfter, List.getElem?_cons_succ, ih, List.take_succ_cons, List.map_cons,
        List.mem_cons]
      congr 1
      funext q
      have : (q.pid = p.pid ∨ q.pid ∈ served) ∨ q.pid ∈ List.map (fun q => q.pid) (List.take j rest)
          ↔ q.pid ∈ served ∨ q.pid = p.pid ∨ q.pid ∈ List.map (fun q => q.pid) (List.take j rest) := by
        tauto
      simp only [this]

theorem countP_split (W : List WindowInfo) (a b c : WindowInfo → Bool)
    (h : ∀ w, (if a w then 1 else 0) + (if b w then 1 else 0) = (if c w then (1 : Nat) else 0)) :
    W.countP a + W.countP b = W.countP c := by
  induction W with
  | nil => rfl
  | cons w rest ih =>
    have hw := h w
    simp only [List.countP_cons]
    omega

theorem aggregatesAfter_sum (W : List WindowInfo) (ps : List ProcessInfo) :
    ∀ served : List Nat,
      ((aggregatesAfter W ps served).map (fun a => a.windows.length)).sum
        = W.countP (fun w => decide (w.pid ∈ ps.map (fun q => q.pid) ∧ w.pid ∉ served)) := by
  induction ps with
  | nil => intro served; simp [aggregatesAfter]
  | cons p rest ih =>
    intro served
    simp only [aggregatesAfter, List.map_cons, List.sum_cons, ih]
    have hhead : (if p.pid ∈ served then ([] : List WindowInfo)
          else W.filter (fun w => w.pid = p.pid)).length
        = W.countP (fun w => decide (w.pid = p.pid ∧ p.pid ∉ served)) := by
      by_cases hs : p.pid ∈ served
      · simp [hs]
      · simp [hs, List.countP_eq_length_filter]
    rw [hhead]
    apply countP_split
    intro w
    by_cases h1 : w.pid = p.pid
    · by_cases h2 : p.pid ∈ served
      · simp [h1, h2]
      · simp [h1, h2]
    · by_cases h2 : w.pid ∈ served
      · simp [h1, h2]
      · by_cases h3 : w.pid ∈ rest.map (fun q => q.pid)
        · have h3b := h3
          simp only [List.mem_map] at h3b
          simp [h1, h2, h3b]
        · have h3b := h3
          simp only [List.mem_map] at h3b
          simp [h1, h2, h3b]

theorem aggregatesAfter_countP (W : List WindowInfo) (w : WindowInfo) (ps : List ProcessInfo) :
    ∀ served : List Nat,
      (aggregatesAfter W ps served).countP (fun a => decide (w ∈ a.windows))
        = if w ∈ W ∧ w.pid ∈ ps.map (fun q => q.pid) ∧ w.pid ∉ served then 1 else 0 := by
  induction ps with
  | nil => intro served; simp [aggregatesAfter]
  | cons p rest ih =>
    intro served
    simp only [aggregatesAfter, List.countP_cons, ih]
    by_cases hW : w ∈ W
    · by_cases h1 : w.pid = p.pid
      · by_cases h2 : p.pid ∈ served
        · simp [hW, h1, h2]
        · simp [hW, h1, h2, List.mem_filter]
      · have h1b : ¬ p.pid = w.pid := fun e => h1 e.symm
        by_cases h2 : w.pid ∈ served
        · have hhead : ¬ (w ∈ (if p.pid ∈ served then ([] : List WindowInfo)
              else W.filter (fun w => w.pid = p.pid))) := by
            split <;> simp [List.mem_filter, h1]
          simp [hW, h1, h2, hhead]
        · have hhead : ¬ (w ∈ (if p.pid ∈ served then ([] : List WindowInfo)
              else W.filter (fun w => w.pid = p.pid))) := by
            split <;> simp [List.mem_filter, h1]
          simp [hW, h1, h2, hhead]
    · have hhead : ¬ (w ∈ (if p.pid ∈ served then ([] : List WindowInfo)
          else W.filter (fun w => w.pid = p.pid))) := by
        split <;> simp [List.mem_filter, hW]
      simp [hW, hhead]


theorem processes_getElem? (P : List ProcessInfo) (W : List WindowInfo) (t : SYSTEMTIME)
    (i : Nat) :
    ((CollectInspectorSnapshot P W t).processes)[i]? = (P[i]?).map (fun p =>
      { process := p
        windows := if p.pid ∈ (P.take i).map (fun q => q.pid) then []
                   else W.filter (fun w => w.pid = p.pid) }) := by
  rw [processes_eq, aggregatesAfter_getElem?]
  simp

/-! ## Snapshot builder: the claims -/

/-- Claim C1, as amended. The aggregates of the snapshot follow the process
sequence `P` position by position: the `i`-th aggregate holds the `i`-th process
record, together with the windows of `W` owned by its pid, in the order of `W`,
when no earlier process of `P` has that pid, and with no window when an earlier
process of `P` has it. In the scenario pid 10 holds `Alpha`, `Beta` and pid 20
holds nothing. -/
theorem C1_aggregates_follow_processes :
    (∀ (P : List ProcessInfo) (W : List WindowInfo) (t : SYSTEMTIME) (i : Nat),
      ((CollectInspectorSnapshot P W t).processes)[i]? = (P[i]?).map (fun p =>
        { process := p
          windows := if p.pid ∈ (P.take i).map (fun q => q.pid) then []
                     else W.filter (fun w => w.pid = p.pid) }))
    ∧ (CollectInspectorSnapshot scenarioProcesses scenarioWindows sampleTime).processes
        = [ { process := processOf 10 "a.exe", windows := [windowOf 10 "Alpha", windowOf 10 "Beta"] },
            { process := processOf 20 "b.exe", windows := [] } ] := by
  exact ⟨processes_getElem?, by decide⟩

/-- Claim C1 fails as stated: when `P` lists pid 10 twice and `W` holds a window
owned by pid 10, the second aggregate holds no window, although that window's
owner pid equals its pid. -/
theorem C1_repeated_pid_counterexample :
    ((CollectInspectorSnapshot repeatedProcesses [windowOf 10 "Alpha"] sampleTime).processes)[1]?
        = some { process := processOf 10 "a.exe", windows := [] }
    ∧ [windowOf 10 "Alpha"].filter (fun w => w.pid = (processOf 10 "a.exe").pid)
        = [windowOf 10 "Alpha"] := by
  decide

/-- Claim C2. The window counts of the aggregates add up to at most
`totalWindowCount`, and to exactly `totalWindowCount` if and only if the owner
pid of every window of `W` is the pid of some process of `P`. -/
theorem C2_aggregate_sum_le_total (P : List ProcessInfo) (W : List WindowInfo) (t : SYSTEMTIME) :
    (((CollectInspectorSnapshot P W t).processes.map (fun a => a.windows.length)).sum
        ≤ (CollectInspectorSnapshot P W t).totalWindowCount)
    ∧ ((((CollectInspectorSnapshot P W t).processes.map (fun a => a.windows.length)).sum
        = (CollectInspectorSnapshot P W t).totalWindowCount)
      ↔ ∀ w ∈ W, w.pid ∈ P.map (fun p => p.pid)) := by
  rw [processes_eq, aggregatesAfter_sum]
  have htot : (CollectInspectorSnapshot P W t).totalWindowCount = W.length := rfl
  rw [htot]
  refine ⟨List.countP_le_length _, ?_⟩
  rw [List.countP_eq_length]
  simp

/-- Claim C3. `totalProcessCount` is the length of `P` and of the aggregate
sequence, and `totalWindowCount` is the length of `W`, whatever the owner pids
of the windows are. -/
theorem C3_total_counts (P : List ProcessInfo) (W : List WindowInfo) (t : SYSTEMTIME) :
    (CollectInspectorSnapshot P W t).totalProcessCount = P.length
    ∧ (CollectInspectorSnapshot P W t).processes.length = P.length
    ∧ (CollectInspectorSnapshot P W t).totalWindowCount = W.length := by
  refine ⟨rfl, ?_, rfl⟩
  rw [processes_eq, aggregatesAfter_length]

/-- Claim C4. The number of aggregates (counted by position) that hold a window
`w` is one when `w` is in `W` and its owner pid is the pid of some process of
`P`, whether or not `P` repeats a pid, and zero otherwise; an aggregate that
holds `w` holds it as many times as `W` does. -/
theorem C4_window_in_exactly_one_aggregate (P : List ProcessInfo) (W : List WindowInfo)
    (t : SYSTEMTIME) (w : WindowInfo) :
    ((CollectInspectorSnapshot P W t).processes.countP (fun a => decide (w ∈ a.windows))
        = if w ∈ W ∧ w.pid ∈ P.map (fun p => p.pid) then 1 else 0)
    ∧ (∀ a ∈ (CollectInspectorSnapshot P W t).processes,
        w ∈ a.windows → a.windows.count w = W.count w) := by
  constructor
  · rw [processes_eq, aggregatesAfter_countP]
    simp
  · intro a ha hw
    obtain ⟨i, hi⟩ := List.getElem?_of_mem ha
    rw [processes_getElem? P W t i] at hi
    cases hP : P[i]? with
    | none => simp [hP] at hi
    | some p =>
      simp only [hP, Option.map_some', Option.some.injEq] at hi
      subst hi
      dsimp only at hw ⊢
      by_cases hs : p.pid ∈ (P.take i).map (fun q => q.pid)
      · rw [if_pos hs] at hw
        cases hw
      · rw [if_neg hs] at hw ⊢
        have hpid : w.pid = p.pid := by
          have := (List.mem_filter.1 hw).2
          simpa using this
        rw [List.count_filter]
        simpa using hpid

/-- Claim C5, as amended. The pids of the aggregates are the pids of `P`, in
order, and those are the process ids of the enumerated entries; hence the pids
of a snapshot are pairwise distinct exactly when those of `P` are. -/
theorem C5_pids_are_those_enumerated :
    (∀ (P : List ProcessInfo) (W : List WindowInfo) (t : SYSTEMTIME),
      (CollectInspectorSnapshot P W t).processes.map (fun a => a.process.pid)
          = P.map (fun p => p.pid)
      ∧ (((CollectInspectorSnapshot P W t).processes.map (fun a => a.process.pid)).Nodup
          ↔ (P.map (fun p => p.pid)).Nodup))
    ∧ (∀ entries : List PROCESSENTRY32W,
        (EnumerateProcesses (some entries)).map (fun p => p.pid)
          = entries.map (fun e => e.th32ProcessID)) := by
  refine ⟨?_, ?_⟩
  · intro P W t
    have h : (CollectInspectorSnapshot P W t).processes.map (fun a => a.process.pid)
        = P.map (fun p => p.pid) := by
      rw [processes_eq]
      have := congrArg (List.map (fun p : ProcessInfo => p.pid)) (aggregatesAfter_process W P [])
      simpa [List.map_map] using this
    exact ⟨h, by rw [h]⟩
  · intro entries
    simp [EnumerateProcesses, List.map_map]

/-- Claim C5 fails as stated: a process sequence that lists pid 10 twice gives a
snapshot in which two aggregates carry pid 10. -/
theorem C5_repeated_pid_counterexample :
    ¬ ((CollectInspectorSnapshot repeatedProcesses [] sampleTime).processes.map
        (fun a => a.process.pid)).Nodup := by
  decide


/-! ## Presentation layer: lemmas -/

theorem stringFind_nil (text : Bytes) : stringFind text [] = some 0 := by
  cases text <;> simp [stringFind]

theorem stringFind_isSome (text pattern : Bytes) :
    (stringFind text pattern).isSome = true ↔ pattern <:+: text := by
  induction text with
  | nil =>
    by_cases h : pattern = []
    · simp [stringFind, h]
    · simp [stringFind, h]
  | cons c rest ih =>
    rw [stringFind, List.infix_cons_iff]
    by_cases hp : pattern.isPrefixOf (c :: rest) = true
    · simp only [hp, if_true, Option.isSome_some, true_iff]
      exact Or.inl (List.isPrefixOf_iff_prefix.1 hp)
    · have hp2 : ¬ pattern <+: c :: rest := fun h => hp (List.isPrefixOf_iff_prefix.2 h)
      simp only [hp, Option.isSome_map', ih, hp2, false_or]
      simp [ih]

theorem cstr_eq_nil (buffer : Bytes) : cstr buffer = [] ↔ buffer.headD 0 = 0 := by
  cases buffer with
  | nil => simp [cstr]
  | cons b rest =>
    by_cases h : b = 0
    · simp [cstr, List.takeWhile, h]
    · have hb : (b != 0) = true := by simpa using h
      simp [cstr, List.takeWhile, h, hb]

theorem contains_some (text buffer : Bytes) :
    ContainsCaseInsensitive text (some buffer)
      = (stringFind (text.map tolower) ((cstr buffer).map tolower)).isSome := by
  unfold ContainsCaseInsensitive
  by_cases h : buffer.headD 0 = 0
  · have hc := (cstr_eq_nil buffer).2 h
    simp [h, hc, stringFind_nil]
  · simp only [h, if_false]

theorem contains_of_empty (text buffer : Bytes) (h : cstr buffer = []) :
    ContainsCaseInsensitive text (some buffer) = true := by
  rw [contains_some, h]
  simp [stringFind_nil]

theorem tolower_caseVariant (a b : Nat) (h : caseVariant a b = true) :
    tolower a = tolower b := by
  unfold caseVariant at h
  simp only [Bool.or_eq_true, Bool.and_eq_true, beq_iff_eq, decide_eq_true_eq] at h
  unfold tolower
  rcases h with (h | h) | h
  · rw [h]
  · obtain ⟨⟨h1, h2⟩, h3⟩ := h
    subst h3
    have : ¬ (65 ≤ a + 32 ∧ a + 32 ≤ 90) := by omega
    rw [if_pos ⟨h1, h2⟩, if_neg this]
  · obtain ⟨⟨h1, h2⟩, h3⟩ := h
    subst h3
    have : ¬ (65 ≤ b + 32 ∧ b + 32 ≤ 90) := by omega
    rw [if_neg this, if_pos ⟨h1, h2⟩]

theorem map_tolower_sameUpToCase (s t : Bytes) (h : sameUpToCase s t = true) :
    s.map tolower = t.map tolower := by
  induction s generalizing t with
  | nil =>
    cases t with
    | nil => rfl
    | cons b t => simp [sameUpToCase] at h
  | cons a s ih =>
    cases t with
    | nil => simp [sameUpToCase] at h
    | cons b t =>
      simp only [sameUpToCase, Bool.and_eq_true] at h
      simp [tolower_caseVariant a b h.1, ih t h.2]

theorem processListLoop_eq (conv : WString → Bytes) (fr : Frame) (filter : Bytes)
    (entries : List ProcessWindows) :
    ∀ (visibleCount : Nat) (drawn : List DrawCmd),
      processListLoop conv fr filter entries visibleCount drawn
        = (visibleCount + (entries.filter (passesFilter conv filter)).length,
           drawn ++ (entries.filter (passesFilter conv filter)).flatMap (renderGroup conv fr)) := by
  induction entries with
  | nil => intro visibleCount drawn; simp [processListLoop]
  | cons e rest ih =>
    intro visibleCount drawn
    rw [processListLoop]
    by_cases h : ContainsCaseInsensitive (processName conv e) (some filter) = true
    · have hp : passesFilter conv filter e = true := h
      simp only [h, Bool.not_true, Bool.false_eq_true, if_false, ih, List.filter_cons, hp, if_true,
        List.length_cons, List.flatMap_cons, List.append_assoc, Prod.mk.injEq, and_true]
      omega
    · have hp : ¬ passesFilter conv filter e = true := h
      simp only [Bool.not_eq_true] at h
      simp only [h, Bool.not_false, if_true, ih, List.filter_cons, hp, if_false]
      simp

theorem noMatchMessage_not_mem_renderGroup (conv : WString → Bytes) (fr : Frame)
    (entry : ProcessWindows) : noMatchMessage ∉ renderGroup conv fr entry := by
  have hne : lit "No processes match the current filter." ≠ lit "No top-level windows." := by
    decide
  unfold renderGroup noMatchMessage
  simp only []
  split
  · split
    · simp [hne]
    · split <;> simp [renderRow]
  · simp


theorem contains_iff_occurs (text : Bytes) (filter : Option Bytes) :
    ContainsCaseInsensitive text filter = true
      ↔ (filter.elim [] cstr).map tolower <:+: text.map tolower := by
  cases filter with
  | none => simp [ContainsCaseInsensitive]
  | some buffer => rw [contains_some, stringFind_isSome]; rfl

theorem contains_congr (text1 text2 f1 f2 : Bytes)
    (ht : text1.map tolower = text2.map tolower)
    (hf : (cstr f1).map tolower = (cstr f2).map tolower) :
    ContainsCaseInsensitive text1 (some f1) = ContainsCaseInsensitive text2 (some f2) := by
  rw [contains_some, contains_some, ht, hf]

theorem filter_passes_of_empty (conv : WString → Bytes) (filter : Bytes) (h : cstr filter = [])
    (entries : List ProcessWindows) :
    entries.filter (passesFilter conv filter) = entries := by
  rw [List.filter_eq_self]
  intro e _
  exact contains_of_empty _ _ h

theorem groupHeaders_append (xs ys : List DrawCmd) :
    groupHeaders (xs ++ ys) = groupHeaders xs ++ groupHeaders ys := by
  simp [groupHeaders, List.filterMap_append]

theorem groupHeaders_rows (conv : WString → Bytes) (windows : List WindowInfo) :
    groupHeaders (windows.flatMap (renderRow conv)) = [] := by
  induction windows with
  | nil => rfl
  | cons w rest ih =>
    rw [List.flatMap_cons, groupHeaders_append, ih]
    simp [groupHeaders, renderRow, headerOf]

theorem groupHeaders_renderGroup (conv : WString → Bytes) (fr : Frame) (entry : ProcessWindows) :
    groupHeaders (renderGroup conv fr entry) = [headerLabel conv entry] := by
  unfold renderGroup
  simp only []
  rw [groupHeaders_append]
  have hfirst : groupHeaders [DrawCmd.collapsingHeader (headerLabel conv entry)]
      = [headerLabel conv entry] := rfl
  rw [hfirst]
  split
  · rw [groupHeaders_append]
    split
    · rfl
    · rw [groupHeaders_append]
      split
      · rw [groupHeaders_append, groupHeaders_append, groupHeaders_rows]
        rfl
      · rfl
  · rfl

theorem groupHeaders_groups (conv : WString → Bytes) (fr : Frame) (entries : List ProcessWindows) :
    groupHeaders (entries.flatMap (renderGroup conv fr)) = entries.map (headerLabel conv) := by
  induction entries with
  | nil => rfl
  | cons e rest ih =>
    rw [List.flatMap_cons, groupHeaders_append, ih, groupHeaders_renderGroup]
    rfl

theorem groupHeaders_RenderInspectorUi (conv : WString → Bytes) (fr : Frame)
    (processFilter : Bytes) (snapshot : InspectorSnapshot) :
    groupHeaders (RenderInspectorUi conv fr processFilter snapshot).drawn
      = if 0 < fr.DisplaySize.1 ∧ 0 < fr.DisplaySize.2 ∧ fr.Begin = true ∧ fr.BeginChild = true then
          (snapshot.processes.filter
            (passesFilter conv (fr.InputTextWithHint processFilter))).map (headerLabel conv)
        else [] := by
  unfold RenderInspectorUi
  by_cases hsize : fr.DisplaySize.1 ≤ 0 ∨ fr.DisplaySize.2 ≤ 0
  · rw [if_pos hsize]
    have : ¬ (0 < fr.DisplaySize.1 ∧ 0 < fr.DisplaySize.2 ∧ fr.Begin = true ∧ fr.BeginChild = true) := by
      rintro ⟨h1, h2, _, _⟩
      omega
    rw [if_neg this]
    rfl
  · rw [if_neg hsize]
    have hpos : 0 < fr.DisplaySize.1 ∧ 0 < fr.DisplaySize.2 := by omega
    by_cases hb : fr.Begin = true
    · rw [if_pos hb]
      simp only [processListLoop_eq, List.nil_append, Nat.zero_add]
      rw [groupHeaders_append, groupHeaders_append]
      have hhead : ∀ c : DrawCmd, headerOf c = none →
          groupHeaders [DrawCmd.windowBegin (lit "Window Inspector"), DrawCmd.button (lit "Refresh"),
            DrawCmd.sameLine,
            DrawCmd.inputTextWithHint (lit "##ProcessFilter") (lit "Filter by process name"),
            c, DrawCmd.separator, DrawCmd.beginChild (lit "ProcessList")] = [] := by
        intro c hc
        cases c <;> first | rfl | exact absurd hc (by simp [headerOf])
      rw [hhead _ (by split <;> rfl)]
      have htail : groupHeaders [DrawCmd.endChild, DrawCmd.windowEnd] = [] := rfl
      rw [htail]
      by_cases hc : fr.BeginChild = true
      · have hgate : 0 < fr.DisplaySize.1 ∧ 0 < fr.DisplaySize.2 ∧ fr.Begin = true
            ∧ fr.BeginChild = true := ⟨hpos.1, hpos.2, hb, hc⟩
        have hmsg : ∀ (b : Prop) [Decidable b],
            groupHeaders (if b then [noMatchMessage] else []) = [] := by
          intro b _
          split <;> rfl
        rw [if_pos hc, if_pos hgate, groupHeaders_append, groupHeaders_groups, hmsg]
        simp
      · have hgate : ¬ (0 < fr.DisplaySize.1 ∧ 0 < fr.DisplaySize.2 ∧ fr.Begin = true
            ∧ fr.BeginChild = true) := fun h => hc h.2.2.2
        rw [if_neg hc, if_neg hgate]
        rfl
    · have hgate : ¬ (0 < fr.DisplaySize.1 ∧ 0 < fr.DisplaySize.2 ∧ fr.Begin = true
          ∧ fr.BeginChild = true) := fun h => hb h.2.2.1
      rw [if_neg hb, if_neg hgate]
      rfl


/-! ## Presentation layer: the claims -/

/-- Claim C6. `ContainsCaseInsensitive` is true exactly when the lower-cased
filter text occurs as a contiguous run of the lower-cased text, a null or empty
filter matching every text; the loop of `RenderInspectorUi` over the
aggregates counts and draws exactly the groups whose display name passes that
test, in snapshot order; and the group headers `RenderInspectorUi` draws, when
it draws the process list, are those of exactly these groups. -/
theorem C6_group_included_iff_name_contains_filter :
    (∀ (text : Bytes) (filter : Option Bytes),
      ContainsCaseInsensitive text filter = true
        ↔ (filter.elim [] cstr).map tolower <:+: text.map tolower)
    ∧ (∀ (text rest : Bytes),
        ContainsCaseInsensitive text none = true
        ∧ ContainsCaseInsensitive text (some []) = true
        ∧ ContainsCaseInsensitive text (some (0 :: rest)) = true)
    ∧ (∀ (conv : WString → Bytes) (filter : Bytes) (entry : ProcessWindows),
        passesFilter conv filter entry = true
          ↔ (cstr filter).map tolower <:+: (processName conv entry).map tolower)
    ∧ (∀ (conv : WString → Bytes) (fr : Frame) (filter : Bytes) (snapshot : InspectorSnapshot),
        processListLoop conv fr filter snapshot.processes 0 []
          = ((snapshot.processes.filter (passesFilter conv filter)).length,
             (snapshot.processes.filter (passesFilter conv filter)).flatMap (renderGroup conv fr)))
    ∧ (∀ (conv : WString → Bytes) (fr : Frame) (processFilter : Bytes)
        (snapshot : InspectorSnapshot),
        groupHeaders (RenderInspectorUi conv fr processFilter snapshot).drawn
          = if 0 < fr.DisplaySize.1 ∧ 0 < fr.DisplaySize.2 ∧ fr.Begin = true
                ∧ fr.BeginChild = true then
              (snapshot.processes.filter
                (passesFilter conv (fr.InputTextWithHint processFilter))).map (headerLabel conv)
            else []) := by
  refine ⟨contains_iff_occurs, ?_, ?_, ?_, groupHeaders_RenderInspectorUi⟩
  · intro text rest
    exact ⟨rfl, contains_of_empty _ _ rfl, contains_of_empty _ _ (by simp [cstr])⟩
  · intro conv filter entry
    exact contains_iff_occurs _ (some filter)
  · intro conv fr filter snapshot
    rw [processListLoop_eq]
    simp

/-- Claim C7. Two filters that differ only in the case of their letters make
the loop of `RenderInspectorUi` count and draw the same groups for every
snapshot, and two names that differ only in the case of their letters match the
same filters. -/
theorem C7_filter_ignores_case (conv : WString → Bytes) (fr : Frame) (filter1 filter2 : Bytes)
    (name1 name2 : Bytes) (snapshot : InspectorSnapshot)
    (hfilter : sameUpToCase (cstr filter1) (cstr filter2) = true)
    (hname : sameUpToCase name1 name2 = true) :
    snapshot.processes.filter (passesFilter conv filter1)
        = snapshot.processes.filter (passesFilter conv filter2)
    ∧ processListLoop conv fr filter1 snapshot.processes 0 []
        = processListLoop conv fr filter2 snapshot.processes 0 []
    ∧ (∀ filter : Option Bytes,
        ContainsCaseInsensitive name1 filter = ContainsCaseInsensitive name2 filter) := by
  have hf := map_tolower_sameUpToCase _ _ hfilter
  have hn := map_tolower_sameUpToCase _ _ hname
  have hpass : passesFilter conv filter1 = passesFilter conv filter2 := by
    funext e
    exact contains_congr _ _ _ _ rfl hf
  refine ⟨by rw [hpass], by rw [processListLoop_eq, processListLoop_eq, hpass], ?_⟩
  intro filter
  cases filter with
  | none => rfl
  | some buffer => exact contains_congr _ _ _ _ hn rfl

/-- Witness of claim C7: the filters `CHROME` and `chrome`, the names
`Chrome.exe` and `CHROME.EXE`, on the snapshot of the scenario. -/
theorem C7_filter_ignores_case_witness :
    sameUpToCase (cstr (lit "CHROME")) (cstr (lit "chrome")) = true
    ∧ sameUpToCase (lit "Chrome.exe") (lit "CHROME.EXE") = true
    ∧ (scenarioSnapshot.processes.filter (passesFilter asciiConv (lit "CHROME"))
        = scenarioSnapshot.processes.filter (passesFilter asciiConv (lit "chrome"))
      ∧ processListLoop asciiConv openFrame (lit "CHROME") scenarioSnapshot.processes 0 []
        = processListLoop asciiConv openFrame (lit "chrome") scenarioSnapshot.processes 0 []
      ∧ (∀ filter : Option Bytes,
          ContainsCaseInsensitive (lit "Chrome.exe") filter
            = ContainsCaseInsensitive (lit "CHROME.EXE") filter)) :=
  ⟨by decide, by decide,
    C7_filter_ignores_case asciiConv openFrame (lit "CHROME") (lit "chrome")
      (lit "Chrome.exe") (lit "CHROME.EXE") scenarioSnapshot (by decide) (by decide)⟩

/-- Claim C8. With an empty filter buffer (no byte, or a NUL first) every
aggregate of the snapshot passes the filter: the loop of `RenderInspectorUi`
draws every group in snapshot order and counts as many visible groups as the
snapshot has aggregates; a null filter pointer passes every name as well. -/
theorem C8_empty_filter_shows_every_group (conv : WString → Bytes) (fr : Frame)
    (snapshot : InspectorSnapshot) (rest : Bytes) :
    processListLoop conv fr [] snapshot.processes 0 []
        = (snapshot.processes.length, snapshot.processes.flatMap (renderGroup conv fr))
    ∧ processListLoop conv fr (0 :: rest) snapshot.processes 0 []
        = (snapshot.processes.length, snapshot.processes.flatMap (renderGroup conv fr))
    ∧ snapshot.processes.filter (passesFilter conv []) = snapshot.processes
    ∧ snapshot.processes.filter (passesFilter conv (0 :: rest)) = snapshot.processes
    ∧ snapshot.processes.filter
        (fun entry => ContainsCaseInsensitive (processName conv entry) none) = snapshot.processes := by
  have h0 : cstr ([] : Bytes) = [] := rfl
  have h1 : cstr (0 :: rest) = [] := by simp [cstr]
  refine ⟨?_, ?_, filter_passes_of_empty conv _ h0 _, filter_passes_of_empty conv _ h1 _, ?_⟩
  · rw [processListLoop_eq, filter_passes_of_empty conv _ h0]; simp
  · rw [processListLoop_eq, filter_passes_of_empty conv _ h1]; simp
  · rw [List.filter_eq_self]
    intro e _
    rfl

/-- Claim C9. Running the filter loop of `RenderInspectorUi` on the groups that
already passed the same filter counts and draws the same groups, in the same
order, as running it on the whole snapshot. -/
theorem C9_filter_idempotent (conv : WString → Bytes) (fr : Frame) (filter : Bytes)
    (snapshot : InspectorSnapshot) :
    (snapshot.processes.filter (passesFilter conv filter)).filter (passesFilter conv filter)
        = snapshot.processes.filter (passesFilter conv filter)
    ∧ processListLoop conv fr filter (snapshot.processes.filter (passesFilter conv filter)) 0 []
        = processListLoop conv fr filter snapshot.processes 0 [] := by
  have h : (snapshot.processes.filter (passesFilter conv filter)).filter (passesFilter conv filter)
      = snapshot.processes.filter (passesFilter conv filter) := by
    rw [List.filter_filter]
    congr 1
    funext e
    simp
  exact ⟨h, by rw [processListLoop_eq, processListLoop_eq, h]⟩

/-- Claim C10, as amended. `RenderInspectorUi` draws the message "No processes
match the current filter." exactly when the process list region is drawn (the
display has a size and `Begin` and `BeginChild` succeed), the snapshot holds at
least one aggregate and no group passes the filter as edited in this frame; in
particular it is never drawn when some group passes. With the filter `zzz` on
the snapshot of the scenario the message is drawn. -/
theorem C10_no_match_message :
    (∀ (conv : WString → Bytes) (fr : Frame) (processFilter : Bytes)
        (snapshot : InspectorSnapshot),
      noMatchMessage ∈ (RenderInspectorUi conv fr processFilter snapshot).drawn
        ↔ ((0 < fr.DisplaySize.1 ∧ 0 < fr.DisplaySize.2 ∧ fr.Begin = true ∧ fr.BeginChild = true)
            ∧ snapshot.processes ≠ []
            ∧ snapshot.processes.filter
                (passesFilter conv (fr.InputTextWithHint processFilter)) = []))
    ∧ noMatchMessage ∈ (RenderInspectorUi asciiConv openFrame (lit "zzz") scenarioSnapshot).drawn := by
  refine ⟨?_, by decide⟩
  intro conv fr processFilter snapshot
  have hloop : noMatchMessage ∉ (snapshot.processes.filter
      (passesFilter conv (fr.InputTextWithHint processFilter))).flatMap (renderGroup conv fr) := by
    intro hmem
    obtain ⟨e, _, he⟩ := List.mem_flatMap.1 hmem
    exact noMatchMessage_not_mem_renderGroup conv fr e he
  unfold RenderInspectorUi
  by_cases hsize : fr.DisplaySize.1 ≤ 0 ∨ fr.DisplaySize.2 ≤ 0
  · rw [if_pos hsize]
    have : ¬ (0 < fr.DisplaySize.1 ∧ 0 < fr.DisplaySize.2 ∧ fr.Begin = true ∧ fr.BeginChild = true) := by
      rintro ⟨h1, h2, _, _⟩
      omega
    simp [this]
  · rw [if_neg hsize]
    have hpos : 0 < fr.DisplaySize.1 ∧ 0 < fr.DisplaySize.2 := by omega
    by_cases hb : fr.Begin = true
    · rw [if_pos hb]
      simp only [processListLoop_eq, List.nil_append, Nat.zero_add]
      by_cases hc : fr.BeginChild = true
      · by_cases hne : snapshot.processes = []
        · simp [hb, hc, hne, hpos, noMatchMessage]
        · by_cases hvis : snapshot.processes.filter
              (passesFilter conv (fr.InputTextWithHint processFilter)) = []
          · simp [hb, hc, hne, hpos, hvis]
          · have hmem := hloop
            simp only [noMatchMessage] at hmem
            simp [hb, hc, hne, hpos, hvis, noMatchMessage, hmem]
      · simp only [hc, Bool.false_eq_true, if_false, and_false, false_and, iff_false]
        split <;> simp [noMatchMessage]
    · rw [if_neg hb]
      simp [hb, noMatchMessage]

/-- Claim C10 fails as stated: on the empty snapshot with the filter `zzz`, in a
frame that draws the process list, no group matches the non-empty filter and the
message is not drawn. -/
theorem C10_empty_snapshot_counterexample :
    cstr (openFrame.InputTextWithHint (lit "zzz")) ≠ []
    ∧ emptySnapshot.processes.filter
        (passesFilter asciiConv (openFrame.InputTextWithHint (lit "zzz"))) = []
    ∧ noMatchMessage ∉ (RenderInspectorUi asciiConv openFrame (lit "zzz") emptySnapshot).drawn := by
  decide


/-! ## Refresh flag and recorded titles: lemmas -/

theorem refreshRequested_eq (conv : WString → Bytes) (fr : Frame) (processFilter : Bytes)
    (snapshot : InspectorSnapshot) :
    (RenderInspectorUi conv fr processFilter snapshot).refreshRequested
      = (decide (0 < fr.DisplaySize.1 ∧ 0 < fr.DisplaySize.2) && fr.Begin && fr.Button) := by
  unfold RenderInspectorUi
  by_cases hsize : fr.DisplaySize.1 ≤ 0 ∨ fr.DisplaySize.2 ≤ 0
  · rw [if_pos hsize]
    have : ¬ (0 < fr.DisplaySize.1 ∧ 0 < fr.DisplaySize.2) := by omega
    simp [this]
  · rw [if_neg hsize]
    have hpos : 0 < fr.DisplaySize.1 ∧ 0 < fr.DisplaySize.2 := by omega
    by_cases hb : fr.Begin = true
    · rw [if_pos hb]
      simp [hpos, hb]
    · rw [if_neg hb]
      simp [hb]

theorem button_mem_drawn (conv : WString → Bytes) (fr : Frame) (processFilter : Bytes)
    (snapshot : InspectorSnapshot) :
    DrawCmd.button (lit "Refresh") ∈ (RenderInspectorUi conv fr processFilter snapshot).drawn
      ↔ (0 < fr.DisplaySize.1 ∧ 0 < fr.DisplaySize.2) ∧ fr.Begin = true := by
  unfold RenderInspectorUi
  by_cases hsize : fr.DisplaySize.1 ≤ 0 ∨ fr.DisplaySize.2 ≤ 0
  · rw [if_pos hsize]
    have : ¬ (0 < fr.DisplaySize.1 ∧ 0 < fr.DisplaySize.2) := by omega
    simp [this]
  · rw [if_neg hsize]
    have hpos : 0 < fr.DisplaySize.1 ∧ 0 < fr.DisplaySize.2 := by omega
    by_cases hb : fr.Begin = true
    · rw [if_pos hb]
      simp [hpos, hb]
    · rw [if_neg hb]
      simp [hb]

theorem frameLoop_eq (conv : WString → Bytes) (iterations : List Iteration) :
    ∀ (processFilter : Bytes) (snapshot : InspectorSnapshot),
      frameLoop conv iterations processFilter snapshot
        = iterations.map (fun it =>
            decide (0 < it.frame.DisplaySize.1 ∧ 0 < it.frame.DisplaySize.2)
              && it.frame.Begin && it.frame.Button) := by
  induction iterations with
  | nil => intro processFilter snapshot; rfl
  | cons it rest ih =>
    intro processFilter snapshot
    rw [frameLoop]
    simp only [ih, refreshRequested_eq, List.map_cons]

theorem resize_length (text : WString) (count : Nat) : (resize text count).length = count := by
  simp only [resize, List.length_append, List.length_take, List.length_replicate]
  omega

theorem filled_length (size : Nat) (written : WString) : (filled size written).length = size := by
  simp only [filled, List.length_take, List.length_append, List.length_replicate]
  omega

theorem resize_filled (size count : Nat) (written : WString) (h1 : count ≤ size)
    (h2 : count ≤ written.length) : resize (filled size written) count = written.take count := by
  have hlen := filled_length size written
  have hpad : count - (filled size written).length = 0 := by omega
  rw [resize, hpad, filled, List.take_take, Nat.min_eq_left h1, List.take_append_of_le_length h2]
  simp

theorem recordedTitle_copied (a : WindowAnswers) (hlen : 0 < a.GetWindowTextLengthW)
    (hcopied : 0 < a.GetWindowTextW.1) :
    recordedTitle a
      = resize (filled (a.GetWindowTextLengthW + 1).toNat a.GetWindowTextW.2)
          a.GetWindowTextW.1.toNat := by
  have hne : resize (filled (a.GetWindowTextLengthW + 1).toNat a.GetWindowTextW.2)
      a.GetWindowTextW.1.toNat ≠ [] := by
    intro h
    have := congrArg List.length h
    rw [resize_length] at this
    simp only [List.length_nil] at this
    omega
  unfold recordedTitle
  simp only [gt_iff_lt, hlen, hcopied, if_true, hne, if_false]

theorem recordedTitle_sentinel (a : WindowAnswers)
    (h : a.GetWindowTextLengthW ≤ 0 ∨ a.GetWindowTextW.1 ≤ 0) :
    recordedTitle a = lit "<No Title>" := by
  unfold recordedTitle
  by_cases hlen : 0 < a.GetWindowTextLengthW
  · have hcopied : ¬ 0 < a.GetWindowTextW.1 := by omega
    simp only [gt_iff_lt, hlen, hcopied, if_true, if_false]
  · simp only [gt_iff_lt, hlen, if_true, if_false]

theorem recordedTitle_ne_nil (a : WindowAnswers) : recordedTitle a ≠ [] := by
  by_cases h : a.GetWindowTextLengthW ≤ 0 ∨ a.GetWindowTextW.1 ≤ 0
  · rw [recordedTitle_sentinel a h]
    decide
  · have hlen : 0 < a.GetWindowTextLengthW := by omega
    have hcopied : 0 < a.GetWindowTextW.1 := by omega
    rw [recordedTitle_copied a hlen hcopied]
    intro hnil
    have := congrArg List.length hnil
    rw [resize_length] at this
    simp only [List.length_nil] at this
    omega

theorem renderRow_title (conv : WString → Bytes) (window : WindowInfo) :
    (renderRow conv window)[4]?
      = some (DrawCmd.textUnformatted
          (if window.title = [] then lit "<No Title>" else ToUtf8 conv window.title)) := by
  rfl

theorem ToUtf8_sentinel (conv : WString → Bytes)
    (hconv : conv (lit "<No Title>") = lit "<No Title>") :
    ToUtf8 conv (lit "<No Title>") = lit "<No Title>" := by
  have hne : lit "<No Title>" ≠ [] := by decide
  have hlen : ¬ (((lit "<No Title>").length : Int) ≤ 0) := by decide
  unfold ToUtf8
  rw [if_neg hne, hconv]
  simp only [hlen, if_false]


/-! ## Refresh flag and recorded titles: the claims -/

/-- Claim C11. The flag `RenderInspectorUi` returns is true exactly when this
call reached `Button("Refresh")` and the button answered that it was activated;
it does not depend on the filter buffer or the snapshot the call finds, and over
the rendering iterations of the frame loop the flag of each iteration is that of
its own frame, whatever the earlier iterations returned. -/
theorem C11_refresh_flag_is_this_frames_button :
    (∀ (conv : WString → Bytes) (fr : Frame) (processFilter : Bytes)
        (snapshot : InspectorSnapshot),
      ((RenderInspectorUi conv fr processFilter snapshot).refreshRequested = true
        ↔ DrawCmd.button (lit "Refresh")
              ∈ (RenderInspectorUi conv fr processFilter snapshot).drawn
            ∧ fr.Button = true)
      ∧ (RenderInspectorUi conv fr processFilter snapshot).refreshRequested
          = (decide (0 < fr.DisplaySize.1 ∧ 0 < fr.DisplaySize.2) && fr.Begin && fr.Button))
    ∧ (∀ (conv : WString → Bytes) (iterations : List Iteration) (processFilter : Bytes)
        (snapshot : InspectorSnapshot),
        frameLoop conv iterations processFilter snapshot
          = iterations.map (fun it =>
              decide (0 < it.frame.DisplaySize.1 ∧ 0 < it.frame.DisplaySize.2)
                && it.frame.Begin && it.frame.Button))
    ∧ frameLoop asciiConv
        [ { frame := pressedFrame, processes := scenarioProcesses, windows := scenarioWindows,
            localTime := sampleTime },
          { frame := openFrame, processes := [], windows := [], localTime := sampleTime },
          { frame := pressedFrame, processes := [], windows := [], localTime := sampleTime } ]
        [] emptySnapshot = [true, false, true] := by
  refine ⟨?_, fun conv iterations => frameLoop_eq conv iterations, by decide⟩
  intro conv fr processFilter snapshot
  refine ⟨?_, refreshRequested_eq conv fr processFilter snapshot⟩
  rw [refreshRequested_eq, button_mem_drawn]
  simp only [Bool.and_eq_true, decide_eq_true_eq]


/-- Claim C12. The title `EnumWindowsThunk` records for a window is never empty:
when the reported length and the copied count are both positive it is the title
buffer resized to the copied count, which is the copied text cut at that count
when the platform copied no more than the reported length; when the reported
length is not positive or nothing was copied it is `<No Title>`. The title cell
of the table row shows the UTF-8 form of the recorded title, hence `<No Title>`
for the sentinel, given that the conversion maps this ASCII text to itself; and
a record whose title is empty is shown as `<No Title>` as well. -/
theorem C12_recorded_title_never_empty (conv : WString → Bytes) (a : WindowAnswers)
    (hconv : conv (lit "<No Title>") = lit "<No Title>") :
    recordedTitle a ≠ []
    ∧ (0 < a.GetWindowTextLengthW → 0 < a.GetWindowTextW.1 →
        recordedTitle a
          = resize (filled (a.GetWindowTextLengthW + 1).toNat a.GetWindowTextW.2)
              a.GetWindowTextW.1.toNat)
    ∧ (0 < a.GetWindowTextLengthW → 0 < a.GetWindowTextW.1 →
        a.GetWindowTextW.1 ≤ a.GetWindowTextLengthW →
        a.GetWindowTextW.1.toNat ≤ a.GetWindowTextW.2.length →
        recordedTitle a = a.GetWindowTextW.2.take a.GetWindowTextW.1.toNat)
    ∧ (a.GetWindowTextLengthW ≤ 0 ∨ a.GetWindowTextW.1 ≤ 0 →
        recordedTitle a = lit "<No Title>")
    ∧ (∀ windows : List WindowInfo, a.IsWindow = true →
        EnumWindowsThunk a windows = windows ++ [recordOf a])
    ∧ (recordOf a).title = recordedTitle a
    ∧ (renderRow conv (recordOf a))[4]?
        = some (DrawCmd.textUnformatted (ToUtf8 conv (recordedTitle a)))
    ∧ (recordedTitle a = lit "<No Title>" →
        (renderRow conv (recordOf a))[4]? = some (DrawCmd.textUnformatted (lit "<No Title>")))
    ∧ (∀ window : WindowInfo, window.title = [] →
        (renderRow conv window)[4]? = some (DrawCmd.textUnformatted (lit "<No Title>"))) := by
  have hne := recordedTitle_ne_nil a
  have hrow : (renderRow conv (recordOf a))[4]?
      = some (DrawCmd.textUnformatted (ToUtf8 conv (recordedTitle a))) := by
    rw [renderRow_title]
    have : (recordOf a).title = recordedTitle a := rfl
    rw [this, if_neg hne]
  refine ⟨hne, recordedTitle_copied a, ?_, recordedTitle_sentinel a, ?_, rfl, hrow, ?_, ?_⟩
  · intro hlen hcopied hle hwritten
    rw [recordedTitle_copied a hlen hcopied]
    exact resize_filled _ _ _ (by omega) hwritten
  · intro windows hw
    simp [EnumWindowsThunk, hw]
  · intro hs
    rw [hrow, hs, ToUtf8_sentinel conv hconv]
  · intro window hw
    rw [renderRow_title, if_pos hw]

/-- Witness of claim C12: a window whose reported title length is zero is
recorded with the title `<No Title>`, and its table row shows `<No Title>`. -/
theorem C12_recorded_title_never_empty_witness :
    asciiConv (lit "<No Title>") = lit "<No Title>"
    ∧ recordedTitle untitledWindow ≠ []
    ∧ recordedTitle untitledWindow = lit "<No Title>"
    ∧ (renderRow asciiConv (recordOf untitledWindow))[4]?
        = some (DrawCmd.textUnformatted (lit "<No Title>")) :=
  ⟨rfl, (C12_recorded_title_never_empty asciiConv untitledWindow rfl).1,
    (C12_recorded_title_never_empty asciiConv untitledWindow rfl).2.2.2.1 (Or.inl (by decide)),
    (C12_recorded_title_never_empty asciiConv untitledWindow rfl).2.2.2.2.2.2.2.1
      ((C12_recorded_title_never_empty asciiConv untitledWindow rfl).2.2.2.1 (Or.inl (by decide)))⟩


end Inspector
